import Mathlib

/-!
Shallow embedding of `fitness.py` (GymApp): the BMI calculator, the
interactive session collector (body-part / exercise / weight-reps-sets
prompts), and the per-day CSV record store.

Python floats are modelled as rationals (`ℚ`), Python ints as `Int`.
Interactive `input()` is modelled by an explicit input stream
(`List String`); the unbounded `while True:` retry loops are modelled
with a fuel parameter, returning `none` when fuel or input runs out.
An uncaught Python exception (`ValueError` escaping to top level) is
modelled as `Except.error`.
-/

/-- Numeric value of a list of decimal digit characters (most significant
first), as read by Python `int` / `float` on a digit string. -/
def digitsToNat (cs : List Char) : Nat :=
  cs.foldl (fun acc c => acc * 10 + (c.toNat - 48)) 0

/-- Python whitespace characters stripped by `int()` / `float()`. -/
def isPySpace (c : Char) : Bool :=
  c = ' ' || c = '\t' || c = '\n' || c = '\r' || c = Char.ofNat 11 || c = Char.ofNat 12

/-- Strip leading and trailing whitespace from a character list
(Python's `str.strip()` as applied inside `int()` / `float()`). -/
def trimChars (cs : List Char) : List Char :=
  ((cs.dropWhile isPySpace).reverse.dropWhile isPySpace).reverse

/-- `line.split(',')` from `fitness.py` line 121 on the character list:
split at every comma, keeping empty pieces (Python semantics). -/
def splitComma : List Char → List (List Char)
  | [] => [[]]
  | c :: rest =>
    if c = ',' then [] :: splitComma rest
    else
      match splitComma rest with
      | [] => [[c]]
      | t :: ts => (c :: t) :: ts

/-- ASCII lower-casing of one character (Python `str.lower()` on the
ASCII answers this program compares against). -/
def lowerChar (c : Char) : Char :=
  if 'A' ≤ c ∧ c ≤ 'Z' then Char.ofNat (c.toNat + 32) else c

/-- ASCII `str.lower()` on a whole string. -/
def lowerStr (s : String) : String :=
  String.mk (s.toList.map lowerChar)

/-- Model of Python `str.isdigit()` restricted to ASCII: true iff the
string is nonempty and every character is a decimal digit. -/
def isDigitStr (s : String) : Bool :=
  !s.toList.isEmpty && s.toList.all Char.isDigit

/-- Model of Python `int(s)`: optional surrounding whitespace, optional
sign, then a nonempty run of decimal digits; `none` models `ValueError`. -/
def parsePyInt (s : String) : Option Int :=
  match trimChars s.toList with
  | '-' :: ds =>
    if ds.isEmpty || !ds.all Char.isDigit then none
    else some (-(digitsToNat ds : Int))
  | '+' :: ds =>
    if ds.isEmpty || !ds.all Char.isDigit then none
    else some (digitsToNat ds : Int)
  | ds =>
    if ds.isEmpty || !ds.all Char.isDigit then none
    else some (digitsToNat ds : Int)

/-- Model of Python `float(s)` restricted to plain decimal literals:
optional surrounding whitespace, optional sign, digits with at most one
decimal point and at least one digit overall; `none` models `ValueError`
(no exponent / `inf` / `nan` forms, which no spec scenario uses). -/
def parsePyFloat (s : String) : Option ℚ :=
  let t := trimChars s.toList
  let sgn : ℚ := match t with | '-' :: _ => -1 | _ => 1
  let body := match t with | '-' :: r => r | '+' :: r => r | _ => t
  let ip := body.takeWhile (fun c => c ≠ '.')
  match body.drop ip.length with
  | [] =>
    if ip.isEmpty || !ip.all Char.isDigit then none
    else some (sgn * (digitsToNat ip : ℚ))
  | _ :: fp =>
    if (ip.isEmpty && fp.isEmpty) || !ip.all Char.isDigit || !fp.all Char.isDigit then none
    else some (sgn * ((digitsToNat ip : ℚ) + (digitsToNat fp : ℚ) / (10 : ℚ) ^ fp.length))

/-- `calculate_bmi` from `fitness.py` lines 6-18: BMI from weight (kg)
and height (cm), and its category string, with the exact branch
conditions of the source (`bmi < 18.5`, `18.5 <= bmi <= 24.9`,
`25 <= bmi <= 29.9`, else). -/
def calculate_bmi (weight height_cm : ℚ) : ℚ × String :=
  let height_m := height_cm / 100
  let bmi := weight / height_m ^ 2
  let category :=
    if bmi < 18.5 then "Underweight"
    else if 18.5 ≤ bmi ∧ bmi ≤ 24.9 then "Normal weight"
    else if 25 ≤ bmi ∧ bmi ≤ 29.9 then "Overweight"
    else "Obesity"
  (bmi, category)

/-- The body-part catalog `self.body_parts` from `fitness.py` line 26. -/
def body_parts : List String := ["Chest", "Back", "Arms", "Shoulders", "Legs"]

/-- The exercise catalog `self.exercises` from `fitness.py` lines 27-55,
as a function from body-part name to its ordered exercise list. -/
def exercisesFor : String → List String
  | "Chest" =>
    ["Incline Smith Press", "Close Grip Flat Press", "Wide Grip Flat Press",
     "Decline Chest Press", "Pec Deck Fly", "High-To-Low Cable Fly",
     "Mid Cable Fly", "Low-To-High Cable Fly", "Bench Press", "Incline Machine Press"]
  | "Back" =>
    ["Lat Pull Down", "Lat Pull Over", "Seated Lat Pull Over",
     "Chest Supported Row", "Chest Supported T-Bar Row", "Rear Delts Fly",
     "Face Pulls", "Hyper-extensions", "Single Cable Lat Pull Over",
     "Barbell Row", "Cable Rows"]
  | "Arms" =>
    ["Bicep Curl (Free Weights)", "Hammer Curls (Free Weights)", "Bicep Curl (Cables)",
     "Bicep Curls (Machine)", "Hammer Curls (Cable)", "Tricep Pushdown (Machine)",
     "Tricep Pushdown (Rope)", "Tricep Pushdown (V-Bar)", "Tricep Pushdown (Easy Bar)",
     "Tricep Pushdown (Straight Bar)", "Single Tricep Pushdown", "Straight Bar Cable Curl",
     "Uni-Lateral Cable Curl", "Wrist Curls"]
  | "Shoulders" =>
    ["Lateral Raises (Free Weights)", "Cable Lateral Raise", "Machine Lateral Raise",
     "Shoulder Press Machine", "Rear Delt Machine", "Cable Rear Delt"]
  | "Legs" =>
    ["Leg Press", "Hack Squat", "Bulgarian Split Squat", "Leg Extension",
     "Hamstring Curl Machine", "Hamstring Curl (Free Weights)", "Abductors",
     "Standing Calf Raise", "Seated Calf Raise", "RDL's"]
  | _ => []

/-- The user-profile dict returned by `input_user_info`
(`fitness.py` line 79). -/
structure UserProfile where
  height_cm : ℚ
  weight_kg : ℚ
  bmi : ℚ
  category : String
  deriving Repr, DecidableEq

/-- One entry of `exercises_data` (`fitness.py` line 145):
`[timestamp, part, exercise, weight, reps, sets]`. -/
structure ExerciseRecord where
  timestamp : String
  body_part : String
  exercise : String
  weight : ℚ
  reps : Int
  sets : Int
  deriving Repr, DecidableEq

/-- A CSV cell as written by `csv.writer`: the Python value before
stringification (string, float, or int), so cell comparisons in the
theorems compare the underlying values. -/
inductive Value where
  | s (v : String)
  | q (v : ℚ)
  | i (v : Int)
  deriving Repr, DecidableEq

/-- The fixed header row `headers` from `fitness.py` line 92. -/
def headers : List Value :=
  [.s "Date", .s "Height (cm)", .s "Weight (kg)", .s "BMI", .s "BMI Category",
   .s "Trained Body Part", .s "Exercise", .s "Weight (kg)", .s "Reps", .s "Sets"]

/-- One data row as written by `fitness.py` line 100: the record's
timestamp, the four profile fields, then the record's own fields
(`entry[1:] = [part, exercise, weight, reps, sets]`). -/
def rowOf (p : UserProfile) (e : ExerciseRecord) : List Value :=
  [.s e.timestamp, .q p.height_cm, .q p.weight_kg, .q p.bmi, .s p.category,
   .s e.body_part, .s e.exercise, .q e.weight, .i e.reps, .i e.sets]

/-- `save_fitness_data` from `fitness.py` lines 85-102, with the day's
file modelled as `Option (List (List Value))` (`none` = the file does
not exist, mirroring `os.path.isfile` before the append). Returns the
file content after the append: the header row is written first iff the
file did not exist, then one row per record in order. -/
def save_fitness_data (p : UserProfile) (file : Option (List (List Value)))
    (data : List ExerciseRecord) : List (List Value) :=
  (match file with
   | none => [headers]
   | some rows => rows) ++ data.map (rowOf p)

/-- Number of header rows in a file content. -/
def countHeaders (rows : List (List Value)) : Nat :=
  rows.countP (fun r => r = headers)

/-- A whole-process sequence of `save_fitness_data` calls against the
same day's file, starting from a given file state. -/
def foldSaves (p : UserProfile) (file : Option (List (List Value))) :
    List (List ExerciseRecord) → List (List Value)
  | [] => match file with | none => [] | some rows => rows
  | d :: ds => foldSaves p (some (save_fitness_data p file d)) ds

/-- The numeric sort key used by `sorted(..., key=int)` on
`fitness.py` line 121; only applied to tokens `parsePyInt` accepts. -/
def intKey (t : String) : Int :=
  (parsePyInt t).getD 0

/-- `selected_parts` computation from `fitness.py` line 121:
`sorted(set(parts_choice.split(',')), key=int)`. Python's `set` is
modelled by string deduplication; `key=int` raises `ValueError` on any
token `int()` rejects, modelled as `Except.error ()`. -/
def selected_parts (parts_choice : String) : Except Unit (List String) :=
  let toks := ((splitComma parts_choice.toList).map String.mk).dedup
  if toks.all (fun t => (parsePyInt t).isSome) then
    .ok (toks.mergeSort (fun a b => intKey a ≤ intKey b))
  else .error ()

/-- The 1-based menu-index guard used on `fitness.py` lines 125 and 132:
`c.isdigit() and 1 <= int(c) <= n`. -/
def valid_choice (c : String) (n : Nat) : Bool :=
  isDigitStr c && 1 ≤ digitsToNat c.toList && digitsToNat c.toList ≤ n

/-- The weight/reps/sets retry loop, `fitness.py` lines 134-144: each
attempt reads weight (float), reps (int), sets (int) in order, aborting
the attempt at the first `ValueError` (later prompts of that attempt
are not read) or when some value is not positive; on abort the whole
triple is re-read from the weight prompt. Returns the first all-positive
triple and the remaining input stream. -/
def read_triple : Nat → List String → Option ((ℚ × Int × Int) × List String)
  | 0, _ => none
  | _ + 1, [] => none
  | fuel + 1, w :: rest =>
    match parsePyFloat w with
    | none => read_triple fuel rest
    | some wv =>
      match rest with
      | [] => none
      | r :: rest2 =>
        match parsePyInt r with
        | none => read_triple fuel rest2
        | some rv =>
          match rest2 with
          | [] => none
          | s :: rest3 =>
            match parsePyInt s with
            | none => read_triple fuel rest3
            | some sv =>
              if 0 < wv ∧ 0 < rv ∧ 0 < sv then some ((wv, rv, sv), rest3)
              else read_triple fuel rest3

/-- `prompt_yes_no` from `fitness.py` lines 104-113: lower-case the
answer; yes/y gives true, no/n gives false, anything else retries. -/
def prompt_yes_no : Nat → List String → Option (Bool × List String)
  | 0, _ => none
  | _ + 1, [] => none
  | fuel + 1, x :: rest =>
    let r := lowerStr x
    if r = "yes" ∨ r = "y" then some (true, rest)
    else if r = "no" ∨ r = "n" then some (false, rest)
    else prompt_yes_no fuel rest

/-- The per-body-part `while True:` exercise loop, `fitness.py` lines
127-149: read an exercise index; if it fails the line-132 guard the
`while True:` simply re-iterates (that `if` has no `else`, and the only
`break` is line 149), re-printing the menu and re-prompting for the
same body part; on a valid index read the weight/reps/sets triple,
append a record stamped `ts`, and ask whether to add another exercise
for the same body part. Returns the records collected for this body
part and the remaining input stream. -/
def exercise_loop (ts part : String) (exs : List String) :
    Nat → List String → Option (List ExerciseRecord × List String)
  | 0, _ => none
  | _ + 1, [] => none
  | fuel + 1, ex_choice :: rest =>
    if valid_choice ex_choice exs.length then
      let exercise := exs.getD (digitsToNat ex_choice.toList - 1) ""
      match read_triple fuel rest with
      | none => none
      | some ((wv, rv, sv), rest2) =>
        let rec0 : ExerciseRecord := ⟨ts, part, exercise, wv, rv, sv⟩
        match prompt_yes_no fuel rest2 with
        | none => none
        | some (more, rest3) =>
          if more then
            match exercise_loop ts part exs fuel rest3 with
            | none => none
            | some (recs, rest4) => some (rec0 :: recs, rest4)
          else some ([rec0], rest3)
    else exercise_loop ts part exs fuel rest

/-- The `for part_index in selected_parts:` loop, `fitness.py` lines
124-151: a token failing the digit/range guard is reported invalid and
skipped; a valid token runs the exercise loop for its body part and the
collected records are accumulated in order. -/
def parts_loop (ts : String) :
    List String → Nat → List String → Option (List ExerciseRecord × List String)
  | [], _, inputs => some ([], inputs)
  | part_index :: ps, fuel, inputs =>
    if valid_choice part_index body_parts.length then
      let part := body_parts.getD (digitsToNat part_index.toList - 1) ""
      match exercise_loop ts part (exercisesFor part) fuel inputs with
      | none => none
      | some (recs, rest) =>
        match parts_loop ts ps fuel rest with
        | none => none
        | some (recs2, rest2) => some (recs ++ recs2, rest2)
    else parts_loop ts ps fuel inputs

/-- `input_body_parts_and_exercises` from `fitness.py` lines 115-152:
read one comma-separated selection line, compute `selected_parts`
(which can raise `ValueError`, modelled as `Except.error`), then run
the per-part loops. -/
def input_body_parts_and_exercises (ts : String) (fuel : Nat) :
    List String → Option (Except Unit (List ExerciseRecord × List String))
  | [] => none
  | line :: rest =>
    match selected_parts line with
    | .error e => some (.error e)
    | .ok sel =>
      match parts_loop ts sel fuel rest with
      | none => none
      | some res => some (.ok res)

/-- `input_user_info` from `fitness.py` lines 70-83: read height then
weight as floats; a `ValueError` on height consumes only the height
input, one on weight consumes both; retry until both parse and are
positive, then build the profile via `calculate_bmi`. -/
def input_user_info : Nat → List String → Option (UserProfile × List String)
  | 0, _ => none
  | _ + 1, [] => none
  | fuel + 1, hstr :: rest =>
    match parsePyFloat hstr with
    | none => input_user_info fuel rest
    | some hv =>
      match rest with
      | [] => none
      | wstr :: rest2 =>
        match parsePyFloat wstr with
        | none => input_user_info fuel rest2
        | some wv =>
          if 0 < hv ∧ 0 < wv then
            let bc := calculate_bmi wv hv
            some (⟨hv, wv, bc.1, bc.2⟩, rest2)
          else input_user_info fuel rest2

/-- Observable events of the top-level loop: a save of a record batch,
the generic "Something went wrong, please start over." message, and a
yes/no answer to "another set of body parts?". -/
inductive Event where
  | saved (recs : List ExerciseRecord)
  | failMsg
  | answered (b : Bool)
  deriving Repr, DecidableEq

/-- `main_loop` from `fitness.py` lines 154-163 over the file state:
run a collection pass; an empty result reports the generic failure and
loops without saving; a non-empty result is saved and the user is asked
whether to continue (no terminates the loop). Returns the event trace,
the final file state and the remaining inputs; `Except.error`
propagates a `ValueError` crash from the selection sort. -/
def main_loop (ts : String) (p : UserProfile) :
    Nat → List String → Option (List (List Value)) →
    Option (Except Unit (List Event × Option (List (List Value)) × List String))
  | 0, _, _ => none
  | fuel + 1, inputs, file =>
    match input_body_parts_and_exercises ts fuel inputs with
    | none => none
    | some (.error e) => some (.error e)
    | some (.ok (recs, rest)) =>
      if recs.isEmpty then
        match main_loop ts p fuel rest file with
        | none => none
        | some (.error e) => some (.error e)
        | some (.ok (evs, file2, rest2)) => some (.ok (.failMsg :: evs, file2, rest2))
      else
        let file2 := save_fitness_data p file recs
        match prompt_yes_no fuel rest with
        | none => none
        | some (ans, rest2) =>
          if ans then
            match main_loop ts p fuel rest2 (some file2) with
            | none => none
            | some (.error e) => some (.error e)
            | some (.ok (evs, file3, rest3)) =>
              some (.ok (.saved recs :: .answered true :: evs, file3, rest3))
          else some (.ok ([.saved recs, .answered false], some file2, rest2))

/-- The whole session (`FitnessApp.__init__` then `main_loop`): collect
the user profile at startup, then run the top-level loop against an
initially nonexistent day file. -/
def app_run (ts : String) (fuel : Nat) (inputs : List String) :
    Option (Except Unit (UserProfile × List Event × Option (List (List Value)) × List String)) :=
  match input_user_info fuel inputs with
  | none => none
  | some (p, rest) =>
    match main_loop ts p fuel rest none with
    | none => none
    | some (.error e) => some (.error e)
    | some (.ok (evs, file, rest2)) => some (.ok (p, evs, file, rest2))

/-- C1: for positive weight and height, `calculate_bmi` returns
`bmi = weight / (height/100)^2`; the claimed partition with Obese only
for `bmi > 29.9` fails on the code: the `else` branch also catches the
gap `24.9 < bmi < 25`. Counterexample: weight 99.8 kg, height 200 cm
gives bmi 24.95 and category "Obesity" although 24.95 ≤ 29.9. -/
theorem c1_counterexample :
    calculate_bmi (499/5) 200 = (499/20, "Obesity") ∧ ¬ (29.9 < (499/20 : ℚ)) := by
  refine ⟨?_, by norm_num⟩
  norm_num [calculate_bmi]

/-- C1 (amended): for every weight > 0 and height > 0, `calculate_bmi`
returns `(bmi, category)` with `bmi = weight / (height/100)^2`, and the
category is Underweight iff bmi < 18.5, Normal iff 18.5 ≤ bmi ≤ 24.9,
Overweight iff 25 ≤ bmi ≤ 29.9, and Obesity iff bmi > 29.9 or bmi lies
in the uncovered gap 24.9 < bmi < 25. -/
theorem c1_bmi_partition (w h : ℚ) (hw : 0 < w) (hh : 0 < h) :
    (calculate_bmi w h).1 = w / (h / 100) ^ 2 ∧
    ((calculate_bmi w h).2 = "Underweight" ↔ (calculate_bmi w h).1 < 18.5) ∧
    ((calculate_bmi w h).2 = "Normal weight" ↔
      18.5 ≤ (calculate_bmi w h).1 ∧ (calculate_bmi w h).1 ≤ 24.9) ∧
    ((calculate_bmi w h).2 = "Overweight" ↔
      25 ≤ (calculate_bmi w h).1 ∧ (calculate_bmi w h).1 ≤ 29.9) ∧
    ((calculate_bmi w h).2 = "Obesity" ↔
      (29.9 < (calculate_bmi w h).1 ∨
        (24.9 < (calculate_bmi w h).1 ∧ (calculate_bmi w h).1 < 25))) := by
  have hfst : (calculate_bmi w h).1 = w / (h / 100) ^ 2 := rfl
  have hsnd : (calculate_bmi w h).2 =
      (if w / (h / 100) ^ 2 < 18.5 then "Underweight"
       else if 18.5 ≤ w / (h / 100) ^ 2 ∧ w / (h / 100) ^ 2 ≤ 24.9 then "Normal weight"
       else if 25 ≤ w / (h / 100) ^ 2 ∧ w / (h / 100) ^ 2 ≤ 29.9 then "Overweight"
       else "Obesity") := rfl
  rw [hfst, hsnd]
  set bmi := w / (h / 100) ^ 2 with hbmi
  refine ⟨rfl, ?_⟩
  split_ifs with h1 h2 h3
  · refine ⟨by simp [h1], ?_, ?_, ?_⟩
    · refine ⟨fun hx => absurd hx (by decide), fun hx => ?_⟩
      exfalso; linarith [hx.1]
    · refine ⟨fun hx => absurd hx (by decide), fun hx => ?_⟩
      exfalso; linarith [hx.1]
    · refine ⟨fun hx => absurd hx (by decide), fun hx => ?_⟩
      exfalso; rcases hx with hx | ⟨a, b⟩ <;> linarith
  · refine ⟨?_, by simp [h2], ?_, ?_⟩
    · refine ⟨fun hx => absurd hx (by decide), fun hx => ?_⟩
      exfalso; linarith [h2.1]
    · refine ⟨fun hx => absurd hx (by decide), fun hx => ?_⟩
      exfalso; linarith [h2.2, hx.1]
    · refine ⟨fun hx => absurd hx (by decide), fun hx => ?_⟩
      exfalso; rcases hx with hx | ⟨a, b⟩ <;> linarith [h2.2]
  · refine ⟨?_, ?_, by simp [h3], ?_⟩
    · refine ⟨fun hx => absurd hx (by decide), fun hx => ?_⟩
      exfalso; exact h1 hx
    · refine ⟨fun hx => absurd hx (by decide), fun hx => ?_⟩
      exact absurd hx h2
    · refine ⟨fun hx => absurd hx (by decide), fun hx => ?_⟩
      exfalso; rcases hx with hx | ⟨a, b⟩ <;> linarith [h3.1, h3.2]
  · push_neg at h1 h2 h3
    have h24 : 24.9 < bmi := h2 h1
    refine ⟨?_, ?_, ?_, ?_⟩
    · refine ⟨fun hx => absurd hx (by decide), fun hx => ?_⟩
      exfalso; linarith
    · refine ⟨fun hx => absurd hx (by decide), fun hx => ?_⟩
      exfalso; linarith [hx.2]
    · refine ⟨fun hx => absurd hx (by decide), fun hx => ?_⟩
      exfalso; linarith [h3 hx.1, hx.2]
    · refine ⟨fun _ => ?_, fun _ => rfl⟩
      by_cases hc : 25 ≤ bmi
      · exact Or.inl (h3 hc)
      · exact Or.inr ⟨h24, lt_of_not_le hc⟩

/-- C1 witness: the amended partition theorem applied at weight 80 kg,
height 180 cm. -/
theorem c1_bmi_partition_witness :
    (calculate_bmi 80 180).1 = 80 / ((180 : ℚ) / 100) ^ 2 :=
  (c1_bmi_partition 80 180 (by norm_num) (by norm_num)).1

/-- C3 (code bug): the claim says an invalid exercise index makes the
loop exit silently for that body part, with no retry of the exercise
prompt, and processing advances to the next selected body part. The
code does not: the guard on `fitness.py` line 132 has no `else` and the
only `break` out of the line-127 `while True:` is line 149, so an
invalid index re-prints the menu and re-prompts for the same body part.
The loop consumes the bad input and retries; a later valid index still
collects a record for the same body part, and the silent-exit result
the claim describes is never produced. -/
theorem c3_invalid_exercise_index_retries :
    (∀ ts part exs fuel c rest, valid_choice c exs.length = false →
        exercise_loop ts part exs (fuel + 1) (c :: rest) =
          exercise_loop ts part exs fuel rest) ∧
    exercise_loop "TS" "Chest" (exercisesFor "Chest") 10
        ["foo", "1", "60", "10", "3", "n"] =
      some ([⟨"TS", "Chest", "Incline Smith Press", 60, 10, 3⟩], []) ∧
    exercise_loop "TS" "Chest" (exercisesFor "Chest") 10 ["foo", "next"] ≠
      some ([], ["next"]) := by
  refine ⟨?_, by with_unfolding_all rfl, ?_⟩
  · intro ts part exs fuel c rest hc
    simp [exercise_loop, hc]
  · have h : exercise_loop "TS" "Chest" (exercisesFor "Chest") 10 ["foo", "next"] =
        none := by
      with_unfolding_all rfl
    rw [h]
    simp

/-- C3 witness: the retry equation applied to a concrete non-digit
exercise choice for Chest. -/
theorem c3_invalid_exercise_index_retries_witness :
    exercise_loop "TS" "Chest" (exercisesFor "Chest") 5 ["foo", "next"] =
      exercise_loop "TS" "Chest" (exercisesFor "Chest") 4 ["next"] :=
  c3_invalid_exercise_index_retries.1 "TS" "Chest" (exercisesFor "Chest") 4 "foo"
    ["next"] (by decide)

/-- C10: the weight/reps/sets triple is validated atomically: whenever
the weight fails to parse, or reps or sets fails to parse after earlier
values parsed, or all three parse but one is not positive, the attempt's
inputs are discarded and the loop restarts from the weight prompt on
the remaining stream — previously entered values of the triple are
never kept. -/
theorem c10_triple_validated_atomically :
    (∀ fuel w rest, parsePyFloat w = none →
        read_triple (fuel + 1) (w :: rest) = read_triple fuel rest) ∧
    (∀ fuel w r rest wv, parsePyFloat w = some wv → parsePyInt r = none →
        read_triple (fuel + 1) (w :: r :: rest) = read_triple fuel rest) ∧
    (∀ fuel w r s rest wv rv, parsePyFloat w = some wv → parsePyInt r = some rv →
        parsePyInt s = none →
        read_triple (fuel + 1) (w :: r :: s :: rest) = read_triple fuel rest) ∧
    (∀ fuel w r s rest wv rv sv, parsePyFloat w = some wv → parsePyInt r = some rv →
        parsePyInt s = some sv → ¬ (0 < wv ∧ 0 < rv ∧ 0 < sv) →
        read_triple (fuel + 1) (w :: r :: s :: rest) = read_triple fuel rest) := by
  refine ⟨?_, ?_, ?_, ?_⟩
  · intro fuel w rest hw
    simp [read_triple, hw]
  · intro fuel w r rest wv hw hr
    simp [read_triple, hw, hr]
  · intro fuel w r s rest wv rv hw hr hs
    simp [read_triple, hw, hr, hs]
  · intro fuel w r s rest wv rv sv hw hr hs hpos
    simp [read_triple, hw, hr, hs, hpos]

/-- C10 witness: a valid weight 60 followed by non-positive reps 0 is
discarded; the next attempt restarts from the weight prompt. -/
theorem c10_triple_validated_atomically_witness :
    read_triple 3 ["60", "0", "3", "x"] = read_triple 2 ["x"] :=
  c10_triple_validated_atomically.2.2.2 2 "60" "0" "3" ["x"] 60 0 3
    (by with_unfolding_all rfl) (by with_unfolding_all rfl)
    (by with_unfolding_all rfl) (by decide)

/-- A data row produced by `rowOf` is never the header row (its second
cell is a numeric value, the header's is a string). -/
theorem rowOf_ne_headers (p : UserProfile) (e : ExerciseRecord) :
    rowOf p e ≠ headers := by
  simp [rowOf, headers]

/-- Appending mapped data rows never adds a header row. -/
theorem countHeaders_append_rows (rows : List (List Value)) (p : UserProfile)
    (data : List ExerciseRecord) :
    countHeaders (rows ++ data.map (rowOf p)) = countHeaders rows := by
  unfold countHeaders
  rw [List.countP_append]
  have : (data.map (rowOf p)).countP (fun r => decide (r = headers)) = 0 := by
    rw [List.countP_eq_zero]
    intro a ha
    obtain ⟨e, _, rfl⟩ := List.mem_map.mp ha
    simp [rowOf_ne_headers]
  omega

/-- Header-count invariant for any run of saves on an existing file with
exactly one header. -/
theorem countHeaders_foldSaves (p : UserProfile) :
    ∀ (ds : List (List ExerciseRecord)) (rows : List (List Value)),
      countHeaders rows = 1 → countHeaders (foldSaves p (some rows) ds) = 1 := by
  intro ds
  induction ds with
  | nil => intro rows h; simpa [foldSaves] using h
  | cons d ds ih =>
    intro rows h
    rw [foldSaves]
    apply ih
    rw [save_fitness_data]
    simpa [countHeaders_append_rows] using h

/-- C4: the header row is written iff the file does not exist at the
moment of the append (a fresh file starts with the header, an append to
an existing file adds no header), so any nonempty sequence of
`save_fitness_data` calls on the same day's file starting from a
nonexistent file leaves exactly one header row in the file. -/
theorem c4_header_once_per_file :
    (∀ p d, (save_fitness_data p none d).head? = some headers ∧
        countHeaders (save_fitness_data p none d) = 1) ∧
    (∀ p rows d, countHeaders (save_fitness_data p (some rows) d) = countHeaders rows) ∧
    (∀ p ds, ds ≠ [] → countHeaders (foldSaves p none ds) = 1) := by
  have hfresh : ∀ (p : UserProfile) d, countHeaders (save_fitness_data p none d) = 1 := by
    intro p d
    rw [save_fitness_data]
    rw [countHeaders_append_rows]
    simp [countHeaders]
  refine ⟨fun p d => ⟨rfl, hfresh p d⟩, ?_, ?_⟩
  · intro p rows d
    rw [save_fitness_data]
    exact countHeaders_append_rows rows p d
  · intro p ds hne
    cases ds with
    | nil => exact absurd rfl hne
    | cons d ds =>
      rw [foldSaves]
      exact countHeaders_foldSaves p ds _ (hfresh p d)

/-- C4 witness: two appends of the same one-record batch to the same
day's initially nonexistent file leave exactly one header row. -/
theorem c4_header_once_per_file_witness :
    countHeaders (foldSaves ⟨180, 80, 2000/81, "Normal weight"⟩ none
      [[⟨"TS", "Chest", "Incline Smith Press", 60, 10, 3⟩],
       [⟨"TS", "Chest", "Incline Smith Press", 60, 10, 3⟩]]) = 1 :=
  c4_header_once_per_file.2.2 ⟨180, 80, 2000/81, "Normal weight"⟩
    [[⟨"TS", "Chest", "Incline Smith Press", 60, 10, 3⟩],
     [⟨"TS", "Chest", "Incline Smith Press", 60, 10, 3⟩]] (by simp)

/-- C5: every save call appends one row per record, in sequence order,
with columns exactly [timestamp, heightCm, weightKg, bmi, bmiCategory,
bodyPart, exerciseName, weightKg, reps, sets], and the four profile
columns of every appended row equal the profile passed to the call
(the one captured at startup and never reassigned). -/
theorem c5_row_fidelity (p : UserProfile) (file : Option (List (List Value)))
    (data : List ExerciseRecord) (hne : data ≠ []) :
    save_fitness_data p file data =
      (match file with | none => [headers] | some rows => rows) ++
        data.map (fun e =>
          [Value.s e.timestamp, Value.q p.height_cm, Value.q p.weight_kg, Value.q p.bmi,
           Value.s p.category, Value.s e.body_part, Value.s e.exercise, Value.q e.weight,
           Value.i e.reps, Value.i e.sets]) ∧
    ∀ row ∈ data.map (rowOf p),
      row[1]? = some (Value.q p.height_cm) ∧ row[2]? = some (Value.q p.weight_kg) ∧
      row[3]? = some (Value.q p.bmi) ∧ row[4]? = some (Value.s p.category) := by
  refine ⟨rfl, ?_⟩
  intro row hrow
  obtain ⟨e, _, rfl⟩ := List.mem_map.mp hrow
  simp [rowOf]

/-- C5 witness: one concrete save of one record. -/
theorem c5_row_fidelity_witness :
    save_fitness_data ⟨180, 80, 2000/81, "Normal weight"⟩ none
        [⟨"TS", "Chest", "Incline Smith Press", 60, 10, 3⟩] =
      [headers] ++
        [[Value.s "TS", Value.q 180, Value.q 80, Value.q (2000/81), Value.s "Normal weight",
          Value.s "Chest", Value.s "Incline Smith Press", Value.q 60, Value.i 10,
          Value.i 3]] :=
  (c5_row_fidelity ⟨180, 80, 2000/81, "Normal weight"⟩ none
    [⟨"TS", "Chest", "Incline Smith Press", 60, 10, 3⟩] (by simp)).1

/-- C6: when the selection line does not crash the sort (every token
parses as an int), the selected tokens are exactly the distinct tokens
of the input line, arranged in ascending numeric order; in particular
"3,1,1,5" selects ["1", "3", "5"] (duplicate "1" counted once) and the
parts are processed as Chest, then Arms, then Legs. -/
theorem c6_selection_dedup_sorted :
    (∀ line sel, selected_parts line = .ok sel →
        sel.Pairwise (fun a b => intKey a ≤ intKey b) ∧
        sel.Nodup ∧
        (∀ t, t ∈ sel ↔ t ∈ (splitComma line.toList).map String.mk)) ∧
    selected_parts "3,1,1,5" = .ok ["1", "3", "5"] ∧
    parts_loop "TS" ["1", "3", "5"] 10
        ["1", "60", "10", "3", "n", "1", "60", "10", "3", "n", "1", "60", "10", "3", "n"] =
      some ([⟨"TS", "Chest", "Incline Smith Press", 60, 10, 3⟩,
             ⟨"TS", "Arms", "Bicep Curl (Free Weights)", 60, 10, 3⟩,
             ⟨"TS", "Legs", "Leg Press", 60, 10, 3⟩], []) := by
  refine ⟨?_, by with_unfolding_all rfl, by with_unfolding_all rfl⟩
  intro line sel h
  simp only [selected_parts] at h
  split_ifs at h with hall
  · injection h with h
    subst h
    refine ⟨?_, ?_, ?_⟩
    · refine List.Pairwise.imp (fun hab => of_decide_eq_true hab) ?_
      refine List.sorted_mergeSort ?_ ?_ _
      · intro a b c hab hbc
        simp only [decide_eq_true_eq] at hab hbc ⊢
        omega
      · intro a b
        simp only [Bool.or_eq_true, decide_eq_true_eq]
        exact Int.le_total _ _
    · exact (List.mergeSort_perm _ _).symm.nodup (List.nodup_dedup _)
    · intro t
      rw [List.mem_mergeSort]
      exact List.mem_dedup

/-- C6 witness: the general conjunct applied to the concrete line
"3,1,1,5". -/
theorem c6_selection_dedup_sorted_witness :
    (["1", "3", "5"] : List String).Nodup :=
  (c6_selection_dedup_sorted.1 "3,1,1,5" ["1", "3", "5"]
    (by with_unfolding_all rfl)).2.1

/-- C2 (code bug): a body-part token that `int()` rejects crashes the
selection: `sorted(set(tokens), key=int)` raises an uncaught
`ValueError` before the per-token digit guard can skip the token, so
the process exits non-interactively, contradicting the claim. Digit
tokens out of range (input "0,2,99") are, as claimed, reported invalid
and skipped while index 2 (Back) is still processed. -/
theorem c2_crash_on_non_digit_token :
    selected_parts "a,2" = .error () ∧
    input_body_parts_and_exercises "2026-10-12 10:00:00" 10 ["a,2"] = some (.error ()) ∧
    main_loop "2026-10-12 10:00:00" ⟨180, 80, 2000/81, "Normal weight"⟩ 11 ["a,2"] none =
      some (.error ()) ∧
    input_body_parts_and_exercises "2026-10-12 10:00:00" 10
        ["0,2,99", "1", "60", "10", "3", "n"] =
      some (.ok ([⟨"2026-10-12 10:00:00", "Back", "Lat Pull Down", 60, 10, 3⟩], [])) := by
  exact ⟨by with_unfolding_all rfl, by with_unfolding_all rfl, by with_unfolding_all rfl,
    by with_unfolding_all rfl⟩

/-- C8 (counterexample): in the end-to-end scenario (height 180,
weight 80, Chest / Incline Smith Press, 60 kg, 10 reps, 3 sets, then
decline twice) the BMI column persisted in the data row is the
unrounded value 2000/81 = 24.691358..., not 24.69 as the claim's row
states. -/
theorem c8_counterexample :
    app_run "2026-10-12 10:00:00" 12 ["180", "80", "1", "1", "60", "10", "3", "n", "n"] =
      some (.ok (⟨180, 80, 2000/81, "Normal weight"⟩,
        [.saved [⟨"2026-10-12 10:00:00", "Chest", "Incline Smith Press", 60, 10, 3⟩],
         .answered false],
        some [headers,
          [.s "2026-10-12 10:00:00", .q 180, .q 80, .q (2000/81), .s "Normal weight",
           .s "Chest", .s "Incline Smith Press", .q 60, .i 10, .i 3]],
        [])) ∧ (2000/81 : ℚ) ≠ 2469/100 := by
  exact ⟨by with_unfolding_all rfl, by norm_num⟩

/-- C8 (amended): the same scenario computes BMI 2000/81 (which rounds
to 24.69 at two decimal places, the displayed form) with category
"Normal weight", and the day's file ends up containing the header row
followed by exactly one data row
[timestamp, 180, 80, 2000/81, "Normal weight", "Chest",
"Incline Smith Press", 60, 10, 3]. -/
theorem c8_end_to_end :
    app_run "2026-10-12 10:00:00" 12 ["180", "80", "1", "1", "60", "10", "3", "n", "n"] =
      some (.ok (⟨180, 80, 2000/81, "Normal weight"⟩,
        [.saved [⟨"2026-10-12 10:00:00", "Chest", "Incline Smith Press", 60, 10, 3⟩],
         .answered false],
        some [headers,
          [.s "2026-10-12 10:00:00", .q 180, .q 80, .q (2000/81), .s "Normal weight",
           .s "Chest", .s "Incline Smith Press", .q 60, .i 10, .i 3]],
        [])) ∧
    (round ((2000/81 : ℚ) * 100) : ℚ) / 100 = 24.69 := by
  refine ⟨by with_unfolding_all rfl, ?_⟩
  norm_num [round_eq]

/-- Any triple returned by the weight/reps/sets retry loop is strictly
positive in all three components. -/
theorem read_triple_pos :
    ∀ (fuel : Nat) (inputs : List String) (wv : ℚ) (rv sv : Int) (rest : List String),
      read_triple fuel inputs = some ((wv, rv, sv), rest) →
      0 < wv ∧ 0 < rv ∧ 0 < sv := by
  intro fuel
  induction fuel with
  | zero => intro inputs wv rv sv rest h; simp [read_triple] at h
  | succ f ih =>
    intro inputs wv rv sv rest h
    match inputs with
    | [] => simp [read_triple] at h
    | w :: rest1 =>
      simp only [read_triple] at h
      cases hw : parsePyFloat w with
      | none => simp only [hw] at h; exact ih _ _ _ _ _ h
      | some wv0 =>
        simp only [hw] at h
        match rest1 with
        | [] => simp at h
        | r :: rest2 =>
          cases hr : parsePyInt r with
          | none => simp only [hr] at h; exact ih _ _ _ _ _ h
          | some rv0 =>
            simp only [hr] at h
            match rest2 with
            | [] => simp at h
            | s :: rest3 =>
              cases hs : parsePyInt s with
              | none => simp only [hs] at h; exact ih _ _ _ _ _ h
              | some sv0 =>
                simp only [hs] at h
                by_cases hpos : 0 < wv0 ∧ 0 < rv0 ∧ 0 < sv0
                · rw [if_pos hpos] at h
                  simp only [Option.some.injEq, Prod.mk.injEq] at h
                  obtain ⟨⟨h1, h2, h3⟩, h4⟩ := h
                  subst h1; subst h2; subst h3
                  exact hpos
                · rw [if_neg hpos] at h
                  exact ih _ _ _ _ _ h

/-- Every record collected by the per-body-part exercise loop has
positive weight, reps and sets. -/
theorem exercise_loop_pos (ts part : String) (exs : List String) :
    ∀ (fuel : Nat) (inputs : List String) (recs : List ExerciseRecord) (rest : List String),
      exercise_loop ts part exs fuel inputs = some (recs, rest) →
      ∀ e ∈ recs, 0 < e.weight ∧ 0 < e.reps ∧ 0 < e.sets := by
  intro fuel
  induction fuel with
  | zero => intro inputs recs rest h; simp [exercise_loop] at h
  | succ f ih =>
    intro inputs recs rest h
    match inputs with
    | [] => simp [exercise_loop] at h
    | c :: rest1 =>
      simp only [exercise_loop] at h
      by_cases hv : valid_choice c exs.length = true
      · rw [if_pos hv] at h
        cases ht : read_triple f rest1 with
        | none => simp only [ht] at h; exact Option.noConfusion h
        | some tr =>
          obtain ⟨⟨wv, rv, sv⟩, rest2⟩ := tr
          simp only [ht] at h
          cases hy : prompt_yes_no f rest2 with
          | none => simp only [hy] at h; exact Option.noConfusion h
          | some ans =>
            obtain ⟨more, rest3⟩ := ans
            simp only [hy] at h
            by_cases hm : more = true
            · rw [if_pos hm] at h
              cases hloop : exercise_loop ts part exs f rest3 with
              | none => simp only [hloop] at h; exact Option.noConfusion h
              | some pr =>
                obtain ⟨recs2, rest4⟩ := pr
                simp only [hloop, Option.some.injEq, Prod.mk.injEq] at h
                obtain ⟨h1, h2⟩ := h
                subst h1
                intro e he
                rcases List.mem_cons.mp he with rfl | he2
                · exact read_triple_pos f rest1 _ _ _ _ ht
                · exact ih rest3 recs2 rest4 hloop e he2
            · rw [if_neg hm] at h
              simp only [Option.some.injEq, Prod.mk.injEq] at h
              obtain ⟨h1, h2⟩ := h
              subst h1
              intro e he
              rcases List.mem_singleton.mp he with rfl
              exact read_triple_pos f rest1 _ _ _ _ ht
      · rw [if_neg hv] at h
        exact ih rest1 recs rest h

/-- Every record accumulated over the selected-parts loop has positive
weight, reps and sets. -/
theorem parts_loop_pos (ts : String) :
    ∀ (sel : List String) (fuel : Nat) (inputs : List String)
      (recs : List ExerciseRecord) (rest : List String),
      parts_loop ts sel fuel inputs = some (recs, rest) →
      ∀ e ∈ recs, 0 < e.weight ∧ 0 < e.reps ∧ 0 < e.sets := by
  intro sel
  induction sel with
  | nil =>
    intro fuel inputs recs rest h
    simp only [parts_loop, Option.some.injEq, Prod.mk.injEq] at h
    obtain ⟨h1, h2⟩ := h
    subst h1
    intro e he
    simp at he
  | cons pidx ps ih =>
    intro fuel inputs recs rest h
    simp only [parts_loop] at h
    by_cases hp : valid_choice pidx body_parts.length = true
    · rw [if_pos hp] at h
      cases hel : exercise_loop ts (body_parts.getD (digitsToNat pidx.toList - 1) "")
          (exercisesFor (body_parts.getD (digitsToNat pidx.toList - 1) "")) fuel inputs with
      | none => simp only [hel] at h; exact Option.noConfusion h
      | some pr =>
        obtain ⟨recs1, rest1⟩ := pr
        simp only [hel] at h
        cases hpl : parts_loop ts ps fuel rest1 with
        | none => simp only [hpl] at h; exact Option.noConfusion h
        | some pr2 =>
          obtain ⟨recs2, rest2⟩ := pr2
          simp only [hpl, Option.some.injEq, Prod.mk.injEq] at h
          obtain ⟨h1, h2⟩ := h
          subst h1
          intro e he
          rcases List.mem_append.mp he with he1 | he2
          · exact exercise_loop_pos ts _ _ fuel inputs recs1 rest1 hel e he1
          · exact ih fuel rest1 recs2 rest2 hpl e he2
    · rw [if_neg hp] at h
      exact ih fuel inputs recs rest h

/-- C9: every ExerciseRecord in the sequence returned by a successful
collection pass has weight > 0, reps > 0 and sets > 0 — the numeric
entry loop only terminates on an all-positive triple, so no record with
a zero or negative weight, rep or set count is ever collected. -/
theorem c9_all_records_positive (ts : String) (fuel : Nat) (inputs : List String)
    (recs : List ExerciseRecord) (rest : List String)
    (h : input_body_parts_and_exercises ts fuel inputs = some (.ok (recs, rest))) :
    ∀ e ∈ recs, 0 < e.weight ∧ 0 < e.reps ∧ 0 < e.sets := by
  match inputs with
  | [] => simp [input_body_parts_and_exercises] at h
  | line :: rest1 =>
    simp only [input_body_parts_and_exercises] at h
    cases hsel : selected_parts line with
    | error e => simp only [hsel] at h; simp at h
    | ok sel =>
      simp only [hsel] at h
      cases hpl : parts_loop ts sel fuel rest1 with
      | none => simp only [hpl] at h; exact Option.noConfusion h
      | some pr =>
        simp only [hpl, Option.some.injEq, Except.ok.injEq] at h
        subst h
        exact parts_loop_pos ts sel fuel rest1 recs rest hpl

/-- C9 witness: the positivity theorem applied to the concrete pass
that collects one Chest record with weight 60, 10 reps, 3 sets. -/
theorem c9_all_records_positive_witness :
    0 < (⟨"TS", "Chest", "Incline Smith Press", 60, 10, 3⟩ : ExerciseRecord).weight ∧
    0 < (⟨"TS", "Chest", "Incline Smith Press", 60, 10, 3⟩ : ExerciseRecord).reps ∧
    0 < (⟨"TS", "Chest", "Incline Smith Press", 60, 10, 3⟩ : ExerciseRecord).sets :=
  c9_all_records_positive "TS" 10 ["1", "1", "60", "10", "3", "n"]
    [⟨"TS", "Chest", "Incline Smith Press", 60, 10, 3⟩] []
    (by with_unfolding_all rfl) _ (List.mem_singleton.mpr rfl)

/-- C7: an empty collection pass persists nothing, reports the generic
failure message and repeats the loop with the file unchanged; and
whenever the top-level loop terminates normally, its event trace ends
with a save of a nonempty record batch followed by a "no" answer — the
program never terminates on an empty pass. -/
theorem c7_empty_pass_retries_and_termination :
    (∀ ts p fuel inputs file rest,
        input_body_parts_and_exercises ts fuel inputs = some (.ok ([], rest)) →
        main_loop ts p (fuel + 1) inputs file =
          (match main_loop ts p fuel rest file with
           | none => none
           | some (.error e) => some (.error e)
           | some (.ok (evs, file2, rest2)) =>
             some (.ok (.failMsg :: evs, file2, rest2)))) ∧
    (∀ ts p fuel inputs file evs file2 rest2,
        main_loop ts p fuel inputs file = some (.ok (evs, file2, rest2)) →
        ∃ evs0 recs, evs = evs0 ++ [.saved recs, .answered false] ∧ recs ≠ []) := by
  constructor
  · intro ts p fuel inputs file rest h
    simp only [main_loop, h, List.isEmpty_nil, if_true]
  · intro ts p fuel
    induction fuel with
    | zero => intro inputs file evs file2 rest2 h; simp [main_loop] at h
    | succ f ih =>
      intro inputs file evs file2 rest2 h
      simp only [main_loop] at h
      cases hI : input_body_parts_and_exercises ts f inputs with
      | none => simp only [hI] at h; exact Option.noConfusion h
      | some res =>
        simp only [hI] at h
        cases res with
        | error e => simp at h
        | ok pr =>
          obtain ⟨recs, rest⟩ := pr
          simp only at h
          by_cases hrecs : recs.isEmpty = true
          · rw [if_pos hrecs] at h
            cases hM : main_loop ts p f rest file with
            | none => simp only [hM] at h; exact Option.noConfusion h
            | some r2 =>
              simp only [hM] at h
              cases r2 with
              | error e => simp at h
              | ok tr =>
                obtain ⟨evs1, f2, r2x⟩ := tr
                simp only [Option.some.injEq, Except.ok.injEq, Prod.mk.injEq] at h
                obtain ⟨h1, h2, h3⟩ := h
                subst h1; subst h2; subst h3
                obtain ⟨evs0, recs0, he, hne⟩ := ih rest file evs1 f2 r2x hM
                exact ⟨.failMsg :: evs0, recs0, by rw [he]; rfl, hne⟩
          · rw [if_neg hrecs] at h
            cases hY : prompt_yes_no f rest with
            | none => simp only [hY] at h; exact Option.noConfusion h
            | some ansr =>
              obtain ⟨ans, rest2x⟩ := ansr
              simp only [hY] at h
              by_cases hans : ans = true
              · rw [if_pos hans] at h
                cases hM : main_loop ts p f rest2x
                    (some (save_fitness_data p file recs)) with
                | none => simp only [hM] at h; exact Option.noConfusion h
                | some r2 =>
                  simp only [hM] at h
                  cases r2 with
                  | error e => simp at h
                  | ok tr =>
                    obtain ⟨evs1, f2, r2y⟩ := tr
                    simp only [Option.some.injEq, Except.ok.injEq, Prod.mk.injEq] at h
                    obtain ⟨h1, h2, h3⟩ := h
                    subst h1; subst h2; subst h3
                    obtain ⟨evs0, recs0, he, hne⟩ :=
                      ih rest2x (some (save_fitness_data p file recs)) evs1 f2 r2y hM
                    exact ⟨.saved recs :: .answered true :: evs0, recs0,
                      by rw [he]; rfl, hne⟩
              · rw [if_neg hans] at h
                simp only [Option.some.injEq, Except.ok.injEq, Prod.mk.injEq] at h
                obtain ⟨h1, h2, h3⟩ := h
                subst h1; subst h2; subst h3
                refine ⟨[], recs, rfl, ?_⟩
                intro hcon
                subst hcon
                simp at hrecs

/-- C7 witness: a pass whose only token is the out-of-range "0" yields
no records and loops with a failure message; and a terminating run's
trace ends with a nonempty save and a "no" answer. -/
theorem c7_empty_pass_retries_and_termination_witness :
    main_loop "TS" ⟨180, 80, 2000/81, "Normal weight"⟩ 10
        ["0", "1", "1", "60", "10", "3", "n", "n"] none =
      (match main_loop "TS" ⟨180, 80, 2000/81, "Normal weight"⟩ 9
          ["1", "1", "60", "10", "3", "n", "n"] none with
       | none => none
       | some (.error e) => some (.error e)
       | some (.ok (evs, file2, rest2)) =>
         some (.ok (.failMsg :: evs, file2, rest2))) ∧
    (∃ evs0 recs,
        ([.saved [⟨"TS", "Chest", "Incline Smith Press", 60, 10, 3⟩],
          .answered false] : List Event) =
          evs0 ++ [.saved recs, .answered false] ∧ recs ≠ []) :=
  ⟨c7_empty_pass_retries_and_termination.1 "TS" ⟨180, 80, 2000/81, "Normal weight"⟩ 9
      ["0", "1", "1", "60", "10", "3", "n", "n"] none
      ["1", "1", "60", "10", "3", "n", "n"] (by with_unfolding_all rfl),
   c7_empty_pass_retries_and_termination.2 "TS" ⟨180, 80, 2000/81, "Normal weight"⟩ 9
      ["1", "1", "60", "10", "3", "n", "n"] none
      [.saved [⟨"TS", "Chest", "Incline Smith Press", 60, 10, 3⟩], .answered false]
      (some [headers,
        [.s "TS", .q 180, .q 80, .q (2000/81), .s "Normal weight", .s "Chest",
         .s "Incline Smith Press", .q 60, .i 10, .i 3]])
      [] (by with_unfolding_all rfl)⟩
